import Mathlib

/-!
# HttpHelper: request dataflow builder and middleware chain

A shallow embedding of `helper.go` and `dataflow/dataflow.go`.

* Go pointers that may be nil are `Option`; a nil dereference is the result
  `Except.error Panic.nilDereference`.
* Go `error` values are the type `Error`; a nil error is `none`.
* A handler `func(request *http.Request, response *http.Response) error`
  receives the two pointees and the trace of everything observed so far and
  returns the error, the pointees as it leaves them, and the extended trace.
* The standard library functions the builder calls (`url.ParseRequestURI`,
  `(*URL).Parse`, `url.ParseQuery`, `Values.Encode`,
  `textproto.CanonicalMIMEHeaderKey`, the JSON encoder) are not part of the
  repository; they are the fields of the parameter `Stdlib`.
-/

namespace HttpHelper

/-! ## Errors and panics -/

/-- A non-nil Go `error`: `errors.New msg`, or `errors.Wrap cause msg`. -/
inductive Error where
  | new (msg : String)
  | wrap (cause : Error) (msg : String)
deriving DecidableEq, Repr

/-- A run-time panic of the Go program. -/
inductive Panic where
  | nilDereference
deriving DecidableEq, Repr

/-- Dereference of a pointer that may be nil. -/
def deref {α : Type} (p : Option α) : Except Panic α :=
  match p with
  | some a => Except.ok a
  | none => Except.error Panic.nilDereference

/-! ## Go maps from string to string slices (`http.Header`, `url.Values`) -/

/-- A `map[string][]string`, as an association list read at its first match. -/
abbrev StrMap := List (String × List String)

/-- The Go expression `m[k]`: the stored slice, or nil when the key is absent. -/
def StrMap.get (m : StrMap) (k : String) : List String :=
  match m with
  | [] => []
  | (k1, v1) :: rest => if k1 = k then v1 else StrMap.get rest k

/-- The Go statement `m[k] = v`. -/
def StrMap.put (m : StrMap) (k : String) (v : List String) : StrMap :=
  match m with
  | [] => [(k, v)]
  | (k1, v1) :: rest => if k1 = k then (k, v) :: rest else (k1, v1) :: StrMap.put rest k v

/-! ## Readers -/

/-- A byte. -/
abbrev Byte := UInt8

/-- The state of a `bytes.Buffer`: contents are `buf[off:]`. -/
structure BytesBuffer where
  buf : List Byte
  off : Nat
deriving DecidableEq, Repr

/-- The state of a `bytes.Reader`. -/
structure BytesReader where
  s : List Byte
  i : Nat
  prevRune : Int
deriving DecidableEq, Repr

/-- The state of a `strings.Reader` (the string as its bytes). -/
structure StringsReader where
  s : List Byte
  i : Nat
  prevRune : Int
deriving DecidableEq, Repr

/-- The method `(*bytes.Buffer).Len`. -/
def BytesBuffer.Len (b : BytesBuffer) : Nat := b.buf.length - b.off

/-- The method `(*bytes.Buffer).Bytes`: the unread portion. -/
def BytesBuffer.Bytes (b : BytesBuffer) : List Byte := b.buf.drop b.off

/-- The method `(*bytes.Reader).Len`. -/
def BytesReader.Len (r : BytesReader) : Nat :=
  if r.i ≥ r.s.length then 0 else r.s.length - r.i

/-- The method `(*strings.Reader).Len`. -/
def StringsReader.Len (r : StringsReader) : Nat :=
  if r.i ≥ r.s.length then 0 else r.s.length - r.i

/-- The function `bytes.NewReader`. -/
def bytesNewReader (b : List Byte) : BytesReader := { s := b, i := 0, prevRune := -1 }

/-- A non-nil `io.Reader`: one of the three in-memory kinds the builder
recognises, or any other reader, given by the bytes it still has to yield. -/
inductive Reader where
  | bytesBuffer (v : BytesBuffer)
  | bytesReader (v : BytesReader)
  | stringsReader (v : StringsReader)
  | other (pending : List Byte)
deriving DecidableEq, Repr

/-- The bytes a reader yields when read to completion. -/
def Reader.unread (r : Reader) : List Byte :=
  match r with
  | Reader.bytesBuffer v => v.buf.drop v.off
  | Reader.bytesReader v => v.s.drop v.i
  | Reader.stringsReader v => v.s.drop v.i
  | Reader.other pending => pending

/-- One `Read` call of the standard library's readers with room for `n`
bytes: the bytes delivered and the reader afterwards. -/
def Reader.Read (r : Reader) (n : Nat) : List Byte × Reader :=
  match r with
  | Reader.bytesBuffer v =>
      ((v.buf.drop v.off).take n, Reader.bytesBuffer { v with off := v.off + min n (v.buf.length - v.off) })
  | Reader.bytesReader v =>
      ((v.s.drop v.i).take n, Reader.bytesReader { v with i := v.i + min n (v.s.length - v.i), prevRune := -1 })
  | Reader.stringsReader v =>
      ((v.s.drop v.i).take n, Reader.stringsReader { v with i := v.i + min n (v.s.length - v.i), prevRune := -1 })
  | Reader.other pending => (pending.take n, Reader.other (pending.drop n))

/-- An `io.ReadCloser`: `io.NopCloser r`, or the sentinel `http.NoBody`. -/
inductive ReadCloser where
  | nopCloser (r : Reader)
  | noBody
deriving DecidableEq, Repr

/-- The bytes a body yields when read to completion. -/
def ReadCloser.unread (b : ReadCloser) : List Byte :=
  match b with
  | ReadCloser.nopCloser r => r.unread
  | ReadCloser.noBody => []

/-- One `Read` call on a body. -/
def ReadCloser.Read (b : ReadCloser) (n : Nat) : List Byte × ReadCloser :=
  match b with
  | ReadCloser.nopCloser r => ((r.Read n).1, ReadCloser.nopCloser (r.Read n).2)
  | ReadCloser.noBody => ([], ReadCloser.noBody)

/-- The closures `Dataflow.Body` stores in `request.GetBody`, one constructor
per closure of the source, holding what the closure captures. -/
inductive GetBodyFn where
  | newReader (buf : List Byte)
  | copyBytesReader (snapshot : BytesReader)
  | copyStringsReader (snapshot : StringsReader)
  | noBody
deriving DecidableEq, Repr

/-- Calling a stored `GetBody` closure. -/
def GetBodyFn.call (g : GetBodyFn) : ReadCloser × Option Error :=
  match g with
  | GetBodyFn.newReader buf => (ReadCloser.nopCloser (Reader.bytesReader (bytesNewReader buf)), none)
  | GetBodyFn.copyBytesReader snapshot => (ReadCloser.nopCloser (Reader.bytesReader snapshot), none)
  | GetBodyFn.copyStringsReader snapshot => (ReadCloser.nopCloser (Reader.stringsReader snapshot), none)
  | GetBodyFn.noBody => (ReadCloser.noBody, none)

/-! ## URLs, requests and responses -/

namespace url

/-- The fields of `url.URL` the builder reads or writes; `Rest` stands for
the others. -/
structure URL where
  Host : String
  RawQuery : String
  Rest : String
deriving DecidableEq, Repr

end url

namespace http

/-- The fields of `http.Request` the builder reads or writes. -/
structure Request where
  Method : String := ""
  URL : Option url.URL := none
  Proto : String := ""
  ProtoMajor : Int := 0
  ProtoMinor : Int := 0
  Header : Option StrMap := none
  Body : Option ReadCloser := none
  GetBody : Option GetBodyFn := none
  ContentLength : Int := 0
  Host : String := ""
deriving DecidableEq, Repr

/-- The fields of `http.Response` the program touches; the zero value is
`new(http.Response)`. -/
structure Response where
  Status : String := ""
  StatusCode : Int := 0
  Header : Option StrMap := none
  Body : Option ReadCloser := none
deriving DecidableEq, Repr

end http

/-- A Go `interface{}` value handed to an encoder. -/
inductive AnyValue where
  | nil
  | string (s : String)
  | number (n : Int)
  | mapStringString (m : List (String × String))
  | channel
deriving DecidableEq, Repr

/-- The standard library functions called by the builder. `xmlEncode` gives
what the encoder wrote to the buffer together with its error. -/
structure Stdlib where
  ParseRequestURI : String → Except Error url.URL
  Parse : url.URL → String → Except Error url.URL
  ParseQuery : String → StrMap
  Encode : StrMap → String
  CanonicalMIMEHeaderKey : String → String
  jsonEncode : AnyValue → Except Error (List Byte)
  xmlEncode : AnyValue → List Byte × Option Error

/-! ## Handlers, middleware and the client -/

/-- What an execution lets an observer see. `doRequest` is recorded at each
invocation of the client's `DoRequest` (the dispatch-call counter of a test
client); `note` is anything a middleware prints. -/
inductive Event where
  | doRequest
  | note (s : String)
deriving DecidableEq, Repr

/-- The number of `DoRequest` invocations in a trace. -/
def dispatchCalls (trace : List Event) : Nat := trace.count Event.doRequest

/-- What a handler leaves behind when it returns. -/
structure Outcome where
  err : Option Error
  request : http.Request
  response : http.Response
  trace : List Event

/-- The type `dataflow.RequestHandle`. -/
abbrev RequestHandle := http.Request → http.Response → List Event → Outcome

/-- The type `dataflow.RequestMiddleware`. -/
abbrev RequestMiddleware := RequestHandle → RequestHandle

/-- The interface `client.Client`, reduced to `DoRequest`: the response
pointer and the error it returns, which may depend on what happened before. -/
structure Client where
  DoRequest : http.Request → List Event → Option http.Response × Option Error

/-! ## helper.go -/

/-- The struct `httphelper.Config`, reduced to the field the helper reads. -/
structure Config where
  BaseUrl : String
deriving DecidableEq, Repr

/-- The struct `RequestHelper`. -/
structure RequestHelper where
  client : Client
  middlewareHandle : RequestMiddleware
  config : Config

/-- The function `NewRequestHelper`, on a non-nil `conf`; `NewHttpClient` is
the client driver's constructor, which may fail. -/
def NewRequestHelper (NewHttpClient : Config → Except Error Client) (conf : Config) :
    Except Error RequestHelper :=
  match NewHttpClient conf with
  | Except.error err => Except.error err
  | Except.ok c =>
      Except.ok { client := c, middlewareHandle := fun handle => handle, config := conf }

/-- The local closure `buildHandle` of `WithMiddleware`. -/
def buildHandle (md : RequestMiddleware) (appendMd : RequestMiddleware) : RequestMiddleware :=
  fun handle => md (appendMd handle)

/-- The loop of `WithMiddleware` over the remaining `middlewares`. -/
def withMiddlewareLoop (handle : RequestMiddleware) (middlewares : List RequestMiddleware) :
    RequestMiddleware :=
  match middlewares with
  | [] => handle
  | middleware :: rest => withMiddlewareLoop (buildHandle handle middleware) rest

/-- The method `RequestHelper.WithMiddleware`. -/
def RequestHelper.WithMiddleware (r : RequestHelper) (middlewares : List RequestMiddleware) :
    RequestHelper :=
  if middlewares.length = 0 then r
  else { r with middlewareHandle := withMiddlewareLoop r.middlewareHandle middlewares }

/-! ## dataflow/dataflow.go -/

/-- The struct `dataflow.Option`. -/
structure Options where
  BaseUrl : String
deriving DecidableEq, Repr

/-- The struct `Dataflow`. -/
structure Dataflow where
  client : Client
  middlewareHandle : RequestMiddleware
  request : http.Request
  option : Option Options
  err : List Error

/-- The function `NewDataflow`. A failed parse of the base URL leaves `u`
nil, and the statement `df.request.Host = u.Host` then dereferences it. -/
def NewDataflow (lib : Stdlib) (client : Client) (middlewareHandle : Option RequestMiddleware)
    (option : Option Options) : Except Panic Dataflow :=
  let middlewareHandle : RequestMiddleware :=
    match middlewareHandle with
    | none => fun handle => handle
    | some m => m
  let df : Dataflow :=
    { client := client
      middlewareHandle := middlewareHandle
      request := { Proto := "HTTP/1.1", ProtoMajor := 1, ProtoMinor := 1, Header := some [] }
      option := option
      err := [] }
  match option with
  | none => Except.ok df
  | some opt =>
      if opt.BaseUrl ≠ "" then
        let parsed := lib.ParseRequestURI opt.BaseUrl
        let u : Option url.URL :=
          match parsed with
          | Except.ok u => some u
          | Except.error _ => none
        let df : Dataflow :=
          match parsed with
          | Except.ok _ => df
          | Except.error err => { df with err := df.err ++ [Error.wrap err "base url invalid"] }
        let df : Dataflow := { df with request := { df.request with URL := u } }
        match deref u with
        | Except.error p => Except.error p
        | Except.ok uv => Except.ok { df with request := { df.request with Host := uv.Host } }
      else Except.ok df

/-- The method `Dataflow.Method`. -/
def Dataflow.Method (d : Dataflow) (method : String) : Dataflow :=
  { d with request := { d.request with Method := method } }

/-- The method `Dataflow.Uri`. It reads `d.option.BaseUrl` first, which
dereferences `d.option`. -/
def Dataflow.Uri (lib : Stdlib) (d : Dataflow) (uri : String) : Except Panic Dataflow :=
  match deref d.option with
  | Except.error p => Except.error p
  | Except.ok opt =>
      let d : Dataflow :=
        if opt.BaseUrl ≠ "" then
          match lib.ParseRequestURI opt.BaseUrl with
          | Except.ok u => { d with request := { d.request with URL := some u } }
          | Except.error _ => { d with request := { d.request with URL := none } }
        else d
      match d.request.URL with
      | none => Except.ok { d with err := d.err ++ [Error.new "invalid request url"] }
      | some base =>
          match lib.Parse base uri with
          | Except.error err => Except.ok { d with err := d.err ++ [err] }
          | Except.ok newUrl => Except.ok { d with request := { d.request with URL := some newUrl } }

/-- The method `Dataflow.Url`. -/
def Dataflow.Url (lib : Stdlib) (d : Dataflow) (requestUrl : String) : Dataflow :=
  match lib.ParseRequestURI requestUrl with
  | Except.error err => { d with err := d.err ++ [Error.wrap err "invalid url"] }
  | Except.ok u => { d with request := { d.request with URL := some u, Host := u.Host } }

/-- The method `http.Header.Set`. -/
def headerSet (lib : Stdlib) (h : StrMap) (key : String) (value : String) : StrMap :=
  h.put (lib.CanonicalMIMEHeaderKey key) [value]

/-- The method `http.Header.Add`. -/
def headerAdd (lib : Stdlib) (h : StrMap) (key : String) (value : String) : StrMap :=
  h.put (lib.CanonicalMIMEHeaderKey key) (h.get (lib.CanonicalMIMEHeaderKey key) ++ [value])

/-- The method `http.Header.Values`; a nil map reads as empty. -/
def headerValues (lib : Stdlib) (h : Option StrMap) (key : String) : List String :=
  match h with
  | none => []
  | some m => m.get (lib.CanonicalMIMEHeaderKey key)

/-- The loop of `Dataflow.Header` from index `i` over the remaining values. -/
def headerLoop (lib : Stdlib) (key : String) (i : Nat) (values : List String) (h : StrMap) :
    StrMap :=
  match values with
  | [] => h
  | v :: rest =>
      headerLoop lib key (i + 1) rest (if i = 0 then headerSet lib h key v else headerAdd lib h key v)

/-- The method `Dataflow.makeHeaderIfNil`. -/
def Dataflow.makeHeaderIfNil (d : Dataflow) : Dataflow :=
  match d.request.Header with
  | none => { d with request := { d.request with Header := some [] } }
  | some _ => d

/-- The method `Dataflow.Header`. -/
def Dataflow.Header (lib : Stdlib) (d : Dataflow) (key : String) (values : List String) :
    Dataflow :=
  if values.length = 0 then d
  else
    let d := d.makeHeaderIfNil
    match d.request.Header with
    | none => d
    | some h => { d with request := { d.request with Header := some (headerLoop lib key 0 values h) } }

/-- The methods `url.Values.Set` and `url.Values.Add`, in the loop of
`Dataflow.Query` from index `i` over the remaining values. -/
def queryLoop (key : String) (i : Nat) (values : List String) (query : StrMap) : StrMap :=
  match values with
  | [] => query
  | v :: rest =>
      queryLoop key (i + 1) rest
        (if i = 0 then query.put key [v] else query.put key (query.get key ++ [v]))

/-- The method `(*URL).Query`. -/
def urlQuery (lib : Stdlib) (u : url.URL) : StrMap := lib.ParseQuery u.RawQuery

/-- The method `Dataflow.Query`. It calls `d.request.URL.Query()`, which
dereferences the URL pointer. -/
def Dataflow.Query (lib : Stdlib) (d : Dataflow) (key : String) (values : List String) :
    Except Panic Dataflow :=
  if values.length = 0 then Except.ok d
  else
    match deref d.request.URL with
    | Except.error p => Except.error p
    | Except.ok u =>
        let query := queryLoop key 0 values (urlQuery lib u)
        Except.ok { d with request := { d.request with URL := some { u with RawQuery := lib.Encode query } } }

/-- The method `Dataflow.Body`. -/
def Dataflow.Body (d : Dataflow) (body : Option Reader) : Dataflow :=
  match body with
  | none => d
  | some b =>
      let req : http.Request := { d.request with Body := some (ReadCloser.nopCloser b) }
      let req : http.Request :=
        match b with
        | Reader.bytesBuffer v =>
            { req with ContentLength := (v.Len : Int), GetBody := some (GetBodyFn.newReader v.Bytes) }
        | Reader.bytesReader v =>
            { req with ContentLength := (v.Len : Int), GetBody := some (GetBodyFn.copyBytesReader v) }
        | Reader.stringsReader v =>
            { req with ContentLength := (v.Len : Int), GetBody := some (GetBodyFn.copyStringsReader v) }
        | Reader.other _ => req
      let req : http.Request :=
        if req.GetBody ≠ none ∧ req.ContentLength = 0 then
          { req with Body := some ReadCloser.noBody, GetBody := some GetBodyFn.noBody }
        else req
      { d with request := req }

/-- The method `Dataflow.Json`. -/
def Dataflow.Json (lib : Stdlib) (d : Dataflow) (jsonAny : AnyValue) : Dataflow :=
  let d := d.Header lib "content-type" ["application/json"]
  let d := d.Header lib "Accept" ["*/*"]
  match lib.jsonEncode jsonAny with
  | Except.error err => { d with err := d.err ++ [Error.wrap err "json body encode failed"] }
  | Except.ok buf => d.Body (some (Reader.bytesBuffer { buf := buf, off := 0 }))

/-- The method `Dataflow.Xml`. -/
def Dataflow.Xml (lib : Stdlib) (d : Dataflow) (xmlAny : AnyValue) : Dataflow :=
  let d := d.Header lib "content-type" ["application/xml"]
  let d : Dataflow :=
    match (lib.xmlEncode xmlAny).2 with
    | some err => { d with err := d.err ++ [err] }
    | none => d
  d.Body (some (Reader.bytesBuffer { buf := (lib.xmlEncode xmlAny).1, off := 0 }))

/-- The method `Dataflow.Err`. -/
def Dataflow.Err (d : Dataflow) : Option Error :=
  match d.err with
  | e :: _ => some e
  | [] => none

/-- The terminal handler built in `Dataflow.Request`: it invokes the
client's `DoRequest` and copies a non-nil result into the response slot. -/
def doRequestHandle (c : Client) : RequestHandle :=
  fun request response trace =>
    let res := (c.DoRequest request trace).1
    let err := (c.DoRequest request trace).2
    { err := err
      request := request
      response := (match res with
        | some r => r
        | none => response)
      trace := trace ++ [Event.doRequest] }

/-- What `Dataflow.Request` returns and leaves behind. -/
structure RequestResult where
  response : Option http.Response
  err : Option Error
  df : Dataflow
  trace : List Event

/-- The method `Dataflow.Request`. -/
def Dataflow.Request (lib : Stdlib) (d : Dataflow) (trace : List Event) : RequestResult :=
  match d.Err with
  | some e => { response := none, err := some e, df := d, trace := trace }
  | none =>
      let d := d.Header lib "Accept" ["*/*"]
      let handle := d.middlewareHandle (doRequestHandle d.client)
      let out := handle d.request {} trace
      let d : Dataflow := { d with request := out.request }
      match out.err with
      | some err =>
          let d : Dataflow := { d with err := d.err ++ [Error.wrap err "request failed"] }
          { response := some out.response, err := d.Err, df := d, trace := out.trace }
      | none => { response := some out.response, err := none, df := d, trace := out.trace }

/-- The method `RequestHelper.Df`. -/
def RequestHelper.Df (lib : Stdlib) (r : RequestHelper) : Except Panic Dataflow :=
  NewDataflow lib r.client (some r.middlewareHandle) (some { BaseUrl := r.config.BaseUrl })

/-! ## Probes and sample values -/

/-- A middleware in the shape of the second one of the repository's example:
it prints before delegating, prints after, and returns what `next` returned. -/
def probe (name : String) : RequestMiddleware :=
  fun handle request response trace =>
    let out := handle request response (trace ++ [Event.note (name ++ "-pre")])
    { out with trace := out.trace ++ [Event.note (name ++ "-post")] }

/-- The chain `m1(m2(...mk(terminal)...))`. -/
def nest (ms : List RequestMiddleware) (terminal : RequestHandle) : RequestHandle :=
  match ms with
  | [] => terminal
  | m :: rest => m (nest rest terminal)

/-- A layer that simply delegates: it may print, without dispatching
itself, and then returns whatever its next handler returns on the request
and response it was given. -/
def Delegates (m : RequestMiddleware) : Prop :=
  ∃ pre : List Event → List Event,
    (∀ trace, dispatchCalls (pre trace) = dispatchCalls trace)
    ∧ ∀ (next : RequestHandle) (request : http.Request) (response : http.Response)
        (trace : List Event), m next request response trace = next request response (pre trace)

/-- A link that returns an error without invoking its next handler: what it
does is one handler `h` whatever `next` is, `h` returns a non-nil error, and
`h` does not call the client behind the chain's back. -/
def ShortCircuits (m : RequestMiddleware) : Prop :=
  ∃ h : RequestHandle,
    (∀ next : RequestHandle, m next = h)
    ∧ (∀ request response trace, (h request response trace).err ≠ none)
    ∧ (∀ request response trace,
        dispatchCalls (h request response trace).trace = dispatchCalls trace)

/-- A link that refuses every request with the error `e`. -/
def refuse (e : Error) : RequestMiddleware :=
  fun _ request response trace =>
    { err := some e, request := request, response := response,
      trace := trace ++ [Event.note "refused"] }

/-- A link that prints `name` and delegates. -/
def announce (name : String) : RequestMiddleware :=
  fun handle request response trace => handle request response (trace ++ [Event.note name])

/-- The events a list of probes prints before delegating, outermost first. -/
def preNotes (names : List String) : List Event :=
  names.map (fun n => Event.note (n ++ "-pre"))

/-- The events a list of probes prints after delegating, innermost first. -/
def postNotes (names : List String) : List Event :=
  names.reverse.map (fun n => Event.note (n ++ "-post"))

/-- A client that answers every request with status 200. -/
def sampleClient : Client :=
  { DoRequest := fun _ _ => (some { Status := "200 OK", StatusCode := 200 }, none) }

/-- A client constructor that always succeeds with `sampleClient`. -/
def sampleNewHttpClient : Config → Except Error Client := fun _ => Except.ok sampleClient

/-- The helper `NewRequestHelper` returns for an empty base URL. -/
def sampleHelper : RequestHelper :=
  { client := sampleClient, middlewareHandle := fun handle => handle, config := { BaseUrl := "" } }

/-- The builder `r.Df()` returns when the helper has an empty base URL. -/
def dfEmptyBase (r : RequestHelper) : Dataflow :=
  { client := r.client
    middlewareHandle := r.middlewareHandle
    request := { Proto := "HTTP/1.1", ProtoMajor := 1, ProtoMinor := 1, Header := some [] }
    option := some { BaseUrl := r.config.BaseUrl }
    err := [] }

/-- A stand-in for the standard library on small inputs: a request URI is
accepted when it starts with a slash or with `http`, query strings and
header keys are left as they are. -/
def sampleLib : Stdlib :=
  { ParseRequestURI := fun raw =>
      match raw.data with
      | '/' :: _ => Except.ok { Host := "", RawQuery := "", Rest := raw }
      | 'h' :: 't' :: 't' :: 'p' :: _ => Except.ok { Host := raw, RawQuery := "", Rest := raw }
      | _ => Except.error (Error.new "invalid URI for request")
    Parse := fun base ref => Except.ok { base with Rest := base.Rest ++ ref }
    ParseQuery := fun _ => []
    Encode := fun _ => ""
    CanonicalMIMEHeaderKey := fun k => k
    jsonEncode := fun _ => Except.ok [123, 125, 10]
    xmlEncode := fun _ => ([], none) }

/-- A small query-string encoder: every pair as `key=value&`, unescaped. -/
def encodePlain (q : StrMap) : List Char :=
  match q with
  | [] => []
  | (k, vs) :: rest =>
      vs.foldr (fun v acc => k.data ++ '=' :: (v.data ++ '&' :: acc)) (encodePlain rest)

/-- The decoder for `encodePlain`: `key` and `value` hold the characters of
the current pair, `inValue` tells whether the `=` has been passed. -/
def parsePlain (cs : List Char) (key value : List Char) (inValue : Bool) (acc : StrMap) : StrMap :=
  match cs with
  | [] => acc
  | c :: rest =>
      if c = '&' then
        parsePlain rest [] [] false
          (acc.put (String.mk key) (acc.get (String.mk key) ++ [String.mk value]))
      else if c = '=' ∧ inValue = false then parsePlain rest key [] true acc
      else if inValue then parsePlain rest key (value ++ [c]) true acc
      else parsePlain rest (key ++ [c]) value false acc

/-- The stand-in `sampleLib` with the plain query-string codec. -/
def codecLib : Stdlib :=
  { sampleLib with
    ParseQuery := fun raw => parsePlain raw.data [] [] false []
    Encode := fun q => String.mk (encodePlain q) }

/-- Whether a reader is one of the three in-memory kinds `Dataflow.Body`
recognises. -/
def Reader.inMemory (r : Reader) : Bool :=
  match r with
  | Reader.other _ => false
  | _ => true

/-- What the holder of a replay function may do next: invoke it once more,
or read up to `n` bytes from the result of invocation number `idx`. -/
inductive ReplayOp where
  | getBody
  | read (idx : Nat) (n : Nat)
deriving DecidableEq, Repr

/-- Reading up to `n` bytes from entry `idx` of the readers handed out so
far; each entry holds the reader and the bytes it has delivered. -/
def readAt (st : List (ReadCloser × List Byte)) (idx : Nat) (n : Nat) :
    List (ReadCloser × List Byte) :=
  match st, idx with
  | [], _ => []
  | (rc, got) :: rest, 0 => ((rc.Read n).2, got ++ (rc.Read n).1) :: rest
  | entry :: rest, i + 1 => entry :: readAt rest i n

/-- One step of a replay session on the replay function `g`. -/
def replayStep (g : GetBodyFn) (st : List (ReadCloser × List Byte)) (op : ReplayOp) :
    List (ReadCloser × List Byte) :=
  match op with
  | ReplayOp.getBody => st ++ [(g.call.1, [])]
  | ReplayOp.read idx n => readAt st idx n

/-- A replay session: the readers handed out, in order of invocation, after
the operations `ops`. -/
def replayRun (g : GetBodyFn) (ops : List ReplayOp) : List (ReadCloser × List Byte) :=
  ops.foldl (replayStep g) []

/-- The method `RequestHelper.SetClient`. -/
def RequestHelper.SetClient (r : RequestHelper) (client : Client) : RequestHelper :=
  { r with client := client }

/-- The `interface{}` argument of `Dataflow.Result` as the method inspects
it: a value that is not a pointer (the nil interface is `any AnyValue.nil`),
or a pointer, nil when `pointee` is `none`. -/
inductive Target where
  | any (v : AnyValue)
  | pointer (pointee : Option AnyValue)
deriving DecidableEq, Repr

/-- The test `reflect.ValueOf(result).Kind() == reflect.Ptr`. -/
def Target.kindIsPtr (t : Target) : Bool :=
  match t with
  | Target.pointer _ => true
  | Target.any _ => false

/-- What `Dataflow.Result` returns and leaves behind: the error, the target
after decoding, the builder and the trace. -/
structure ResultOutcome where
  err : Option Error
  target : Target
  df : Dataflow
  trace : List Event

/-- The method `Dataflow.Result`. `Decode` is the standard library's
`json.NewDecoder(body).Decode(result)`: its error and the target as it
leaves it. -/
def Dataflow.Result (lib : Stdlib) (Decode : Option ReadCloser → Target → Option Error × Target)
    (d : Dataflow) (result : Target) (trace : List Event) : Except Panic ResultOutcome :=
  if result = Target.any AnyValue.nil then
    Except.ok { err := some (Error.new "nil result"), target := result, df := d, trace := trace }
  else if result.kindIsPtr = false then
    Except.ok
      { err := some (Error.new "result is not pointer"), target := result, df := d, trace := trace }
  else
    let res := d.Request lib trace
    match res.err with
    | some err => Except.ok { err := some err, target := result, df := res.df, trace := res.trace }
    | none =>
        match deref res.response with
        | Except.error p => Except.error p
        | Except.ok resp =>
            match (Decode resp.Body result).1 with
            | some err =>
                Except.ok
                  { err := some (Error.wrap err "decode response failed")
                    target := (Decode resp.Body result).2, df := res.df, trace := res.trace }
            | none =>
                Except.ok
                  { err := none, target := (Decode resp.Body result).2, df := res.df,
                    trace := res.trace }

/-- A client that answers with the headers of the request it was handed. -/
def echoClient : Client :=
  { DoRequest := fun request _ => (some { Header := request.Header }, none) }

/-- A stand-in for the JSON decoder: it refuses a target that is not a
non-nil pointer and otherwise stores a string. -/
def sampleDecode : Option ReadCloser → Target → Option Error × Target :=
  fun _ target =>
    match target with
    | Target.pointer (some _) => (none, Target.pointer (some (AnyValue.string "decoded")))
    | other => (some (Error.new "json: Unmarshal(nil or non-pointer)"), other)

/-! ## Theorems -/

/-! ### Maps -/

theorem StrMap.get_put_same (m : StrMap) (k : String) (v : List String) :
    (m.put k v).get k = v := by
  induction m with
  | nil => simp [StrMap.put, StrMap.get]
  | cons hd tl ih =>
      obtain ⟨k1, v1⟩ := hd
      by_cases h : k1 = k
      · simp [StrMap.put, StrMap.get, h]
      · simp [StrMap.put, StrMap.get, h, ih]

theorem StrMap.get_put_other (m : StrMap) (k k2 : String) (v : List String) (h : k2 ≠ k) :
    (m.put k v).get k2 = m.get k2 := by
  induction m with
  | nil => simp [StrMap.put, StrMap.get, Ne.symm h]
  | cons hd tl ih =>
      obtain ⟨k1, v1⟩ := hd
      by_cases h1 : k1 = k
      · subst h1
        simp [StrMap.put, StrMap.get, Ne.symm h]
      · by_cases h2 : k1 = k2
        · subst h2
          simp [StrMap.put, StrMap.get, h1]
        · simp [StrMap.put, StrMap.get, h1, h2, ih]

/-! ### The middleware chain -/

theorem withMiddlewareLoop_eq_nest (handle : RequestMiddleware) (ms : List RequestMiddleware)
    (terminal : RequestHandle) :
    withMiddlewareLoop handle ms terminal = handle (nest ms terminal) := by
  induction ms generalizing handle with
  | nil => rfl
  | cons m rest ih => simp [withMiddlewareLoop, ih, buildHandle, nest]

theorem withMiddlewareLoop_append (handle : RequestMiddleware) (xs ys : List RequestMiddleware) :
    withMiddlewareLoop handle (xs ++ ys) = withMiddlewareLoop (withMiddlewareLoop handle xs) ys := by
  induction xs generalizing handle with
  | nil => rfl
  | cons m rest ih => simp [withMiddlewareLoop, ih]

theorem nest_append (xs ys : List RequestMiddleware) (terminal : RequestHandle) :
    nest (xs ++ ys) terminal = nest xs (nest ys terminal) := by
  induction xs with
  | nil => rfl
  | cons m rest ih => simp [nest, ih]

theorem WithMiddleware_handle (r : RequestHelper) (ms : List RequestMiddleware) :
    (r.WithMiddleware ms).middlewareHandle = withMiddlewareLoop r.middlewareHandle ms := by
  cases ms with
  | nil => rfl
  | cons m rest => simp [RequestHelper.WithMiddleware]

theorem NewRequestHelper_handle (NewHttpClient : Config → Except Error Client) (conf : Config)
    (r : RequestHelper) (hr : NewRequestHelper NewHttpClient conf = Except.ok r) :
    r.middlewareHandle = fun handle => handle := by
  unfold NewRequestHelper at hr
  split at hr
  · cases hr
  · cases hr
    rfl

theorem probes_trace (c : Client) (names : List String) (request : http.Request)
    (response : http.Response) (trace : List Event) :
    (nest (names.map probe) (doRequestHandle c) request response trace).trace
      = trace ++ preNotes names ++ [Event.doRequest] ++ postNotes names := by
  induction names generalizing trace with
  | nil => simp [nest, doRequestHandle, preNotes, postNotes]
  | cons n rest ih =>
      simp only [List.map_cons, nest, probe, ih]
      simp [preNotes, postNotes]

/-! ### The builder -/

theorem Header_middlewareHandle (lib : Stdlib) (d : Dataflow) (key : String) (values : List String) :
    (d.Header lib key values).middlewareHandle = d.middlewareHandle := by
  unfold Dataflow.Header Dataflow.makeHeaderIfNil
  split
  · rfl
  · cases hh : d.request.Header <;> simp [hh]

theorem Header_client (lib : Stdlib) (d : Dataflow) (key : String) (values : List String) :
    (d.Header lib key values).client = d.client := by
  unfold Dataflow.Header Dataflow.makeHeaderIfNil
  split
  · rfl
  · cases hh : d.request.Header <;> simp [hh]

theorem Header_err (lib : Stdlib) (d : Dataflow) (key : String) (values : List String) :
    (d.Header lib key values).err = d.err := by
  unfold Dataflow.Header Dataflow.makeHeaderIfNil
  split
  · rfl
  · cases hh : d.request.Header <;> simp [hh]

theorem Request_trace_of_no_error (lib : Stdlib) (d : Dataflow) (trace : List Event)
    (he : d.err = []) :
    (d.Request lib trace).trace
      = (d.middlewareHandle (doRequestHandle d.client)
          (d.Header lib "Accept" ["*/*"]).request {} trace).trace := by
  have hE : d.Err = none := by simp [Dataflow.Err, he]
  unfold Dataflow.Request
  rw [hE]
  simp only [Header_middlewareHandle, Header_client]
  split <;> rfl

theorem Df_empty_base (lib : Stdlib) (r : RequestHelper) (hb : r.config.BaseUrl = "") :
    r.Df lib = Except.ok (dfEmptyBase r) := by
  simp [RequestHelper.Df, NewDataflow, hb, dfEmptyBase]

theorem Request_trace_probes (lib : Stdlib) (r : RequestHelper)
    (hr : r.middlewareHandle = fun handle => handle) (names : List String) (d : Dataflow)
    (trace : List Event) (hd : d.middlewareHandle = (r.WithMiddleware (names.map probe)).middlewareHandle)
    (he : d.err = []) :
    (d.Request lib trace).trace
      = trace ++ preNotes names ++ [Event.doRequest] ++ postNotes names := by
  rw [Request_trace_of_no_error lib d trace he, hd, WithMiddleware_handle,
    withMiddlewareLoop_eq_nest, hr]
  exact probes_trace d.client names _ _ trace

theorem WithMiddleware_append (r : RequestHelper) (xs ys : List RequestMiddleware) :
    (r.WithMiddleware xs).WithMiddleware ys = r.WithMiddleware (xs ++ ys) := by
  cases xs with
  | nil => rfl
  | cons x xs1 =>
      cases ys with
      | nil => simp [RequestHelper.WithMiddleware]
      | cons y ys1 =>
          have h := withMiddlewareLoop_append r.middlewareHandle (x :: xs1) (y :: ys1)
          simp only [List.cons_append] at h
          simp [RequestHelper.WithMiddleware, h]

theorem foldl_WithMiddleware (r : RequestHelper) (calls : List (List RequestMiddleware)) :
    calls.foldl RequestHelper.WithMiddleware r = r.WithMiddleware calls.flatten := by
  induction calls generalizing r with
  | nil => rfl
  | cons c cs ih => simp [List.foldl, ih, WithMiddleware_append]

theorem nest_delegates (outer : List RequestMiddleware) (houter : ∀ o ∈ outer, Delegates o) :
    ∃ pre : List Event → List Event,
      (∀ trace, dispatchCalls (pre trace) = dispatchCalls trace)
      ∧ ∀ (h : RequestHandle) (request : http.Request) (response : http.Response)
          (trace : List Event),
          nest outer h request response trace = h request response (pre trace) := by
  induction outer with
  | nil => exact ⟨fun t => t, fun _ => rfl, fun _ _ _ _ => rfl⟩
  | cons o rest ih =>
      obtain ⟨pre1, hp1, hn1⟩ := ih (fun x hx => houter x (List.mem_cons_of_mem _ hx))
      obtain ⟨pre0, hp0, hn0⟩ := houter o (List.mem_cons_self _ _)
      refine ⟨fun t => pre1 (pre0 t), ?_, ?_⟩
      · intro trace
        rw [hp1, hp0]
      · intro h request response trace
        simp only [nest]
        rw [hn0, hn1]

theorem Header_request_congr (lib : Stdlib) (d d2 : Dataflow) (key : String)
    (values : List String) (hreq : d2.request = d.request) :
    (d2.Header lib key values).request = (d.Header lib key values).request := by
  unfold Dataflow.Header Dataflow.makeHeaderIfNil
  split
  · exact hreq
  · rw [hreq]
    cases hh : d.request.Header <;> simp [hh, hreq]

theorem Err_congr (d d2 : Dataflow) (herr : d2.err = d.err) : d2.Err = d.Err := by
  simp [Dataflow.Err, herr]

theorem Request_congr (lib : Stdlib) (d d2 : Dataflow) (trace : List Event)
    (hreq : d2.request = d.request) (herr : d2.err = d.err)
    (hH : d2.middlewareHandle (doRequestHandle d2.client)
      = d.middlewareHandle (doRequestHandle d.client)) :
    (d2.Request lib trace).response = (d.Request lib trace).response
    ∧ (d2.Request lib trace).err = (d.Request lib trace).err
    ∧ (d2.Request lib trace).trace = (d.Request lib trace).trace
    ∧ (d2.Request lib trace).df.request = (d.Request lib trace).df.request
    ∧ (d2.Request lib trace).df.err = (d.Request lib trace).df.err := by
  unfold Dataflow.Request
  rw [Err_congr d d2 herr]
  cases hE : d.Err with
  | some e => simp [hreq, herr]
  | none =>
      simp only [Header_middlewareHandle, Header_client, Header_err, hH,
        Header_request_congr lib d d2 "Accept" ["*/*"] hreq, herr]
      split <;> simp [Dataflow.Err, Header_err, herr]

theorem Request_short_circuit (lib : Stdlib) (d : Dataflow) (trace : List Event)
    (h : RequestHandle) (pre : List Event → List Event)
    (hpre : ∀ t, dispatchCalls (pre t) = dispatchCalls t)
    (hH : ∀ request response t,
      d.middlewareHandle (doRequestHandle d.client) request response t = h request response (pre t))
    (herr : ∀ request response t, (h request response t).err ≠ none)
    (hnd : ∀ request response t, dispatchCalls (h request response t).trace = dispatchCalls t) :
    dispatchCalls (d.Request lib trace).trace = dispatchCalls trace
    ∧ (d.Request lib trace).err ≠ none := by
  unfold Dataflow.Request
  cases hE : d.Err with
  | some e => simp
  | none =>
      have hl : d.err = [] := by
        cases hd : d.err with
        | nil => rfl
        | cons a b => simp [Dataflow.Err, hd] at hE
      simp only [Header_middlewareHandle, Header_client, Header_err, hH]
      cases ho : (h (d.Header lib "Accept" ["*/*"]).request {} (pre trace)).err with
      | none => exact absurd ho (herr _ _ _)
      | some e =>
          simp only [hl, List.nil_append, Dataflow.Err]
          refine ⟨?_, by simp⟩
          rw [hnd, hpre]

theorem headerLoop_get_other (lib : Stdlib) (key : String) (values : List String) (i : Nat)
    (h : StrMap) (k : String) (hk : k ≠ lib.CanonicalMIMEHeaderKey key) :
    (headerLoop lib key i values h).get k = h.get k := by
  induction values generalizing i h with
  | nil => rfl
  | cons v rest ih =>
      simp only [headerLoop]
      rw [ih]
      split
      · exact StrMap.get_put_other _ _ _ _ hk
      · exact StrMap.get_put_other _ _ _ _ hk

theorem headerLoop_get_add (lib : Stdlib) (key : String) (values : List String) (i : Nat)
    (hi : i ≠ 0) (h : StrMap) :
    (headerLoop lib key i values h).get (lib.CanonicalMIMEHeaderKey key)
      = h.get (lib.CanonicalMIMEHeaderKey key) ++ values := by
  induction values generalizing i h with
  | nil => simp [headerLoop]
  | cons v rest ih =>
      simp only [headerLoop, hi, if_false]
      rw [ih (i + 1) (Nat.succ_ne_zero i)]
      simp [headerAdd, StrMap.get_put_same]

theorem headerLoop_get_set (lib : Stdlib) (key : String) (v : String) (rest : List String)
    (h : StrMap) :
    (headerLoop lib key 0 (v :: rest) h).get (lib.CanonicalMIMEHeaderKey key) = v :: rest := by
  simp only [headerLoop, if_true]
  rw [headerLoop_get_add lib key rest 1 (by decide)]
  simp [headerSet, StrMap.get_put_same]

theorem queryLoop_get_other (key : String) (values : List String) (i : Nat)
    (q : StrMap) (k : String) (hk : k ≠ key) :
    (queryLoop key i values q).get k = q.get k := by
  induction values generalizing i q with
  | nil => rfl
  | cons v rest ih =>
      simp only [queryLoop]
      rw [ih]
      split
      · exact StrMap.get_put_other _ _ _ _ hk
      · exact StrMap.get_put_other _ _ _ _ hk

theorem queryLoop_get_add (key : String) (values : List String) (i : Nat)
    (hi : i ≠ 0) (q : StrMap) :
    (queryLoop key i values q).get key = q.get key ++ values := by
  induction values generalizing i q with
  | nil => simp [queryLoop]
  | cons v rest ih =>
      simp only [queryLoop, hi, if_false]
      rw [ih (i + 1) (Nat.succ_ne_zero i)]
      simp [StrMap.get_put_same]

theorem queryLoop_get_set (key : String) (v : String) (rest : List String) (q : StrMap) :
    (queryLoop key 0 (v :: rest) q).get key = v :: rest := by
  simp only [queryLoop, if_true]
  rw [queryLoop_get_add key rest 1 (by decide)]
  simp [StrMap.get_put_same]

theorem Header_request_header (lib : Stdlib) (d : Dataflow) (key : String) (v : String)
    (rest : List String) :
    (d.Header lib key (v :: rest)).request.Header
      = some (headerLoop lib key 0 (v :: rest) (d.request.Header.getD [])) := by
  unfold Dataflow.Header Dataflow.makeHeaderIfNil
  cases hh : d.request.Header <;> simp [hh]

/-! ### Readers and replay -/

theorem take_append_drop_min (l : List Byte) (n : Nat) :
    l.take n ++ l.drop (min n l.length) = l := by
  rcases Nat.le_total n l.length with h | h
  · rw [Nat.min_eq_left h]
    exact List.take_append_drop n l
  · rw [Nat.min_eq_right h, List.take_of_length_le h, List.drop_length]
    simp

theorem drop_read (l : List Byte) (off n : Nat) :
    (l.drop off).take n ++ l.drop (off + min n (l.length - off)) = l.drop off := by
  have h := take_append_drop_min (l.drop off) n
  rw [List.length_drop, List.drop_drop] at h
  rw [Nat.add_comm] at h
  rw [Nat.add_comm off]
  exact h

theorem Reader_Read_unread (r : Reader) (n : Nat) :
    (r.Read n).1 ++ (r.Read n).2.unread = r.unread := by
  cases r with
  | bytesBuffer v => exact drop_read v.buf v.off n
  | bytesReader v => exact drop_read v.s v.i n
  | stringsReader v => exact drop_read v.s v.i n
  | other pending => exact List.take_append_drop n pending

theorem ReadCloser_Read_unread (b : ReadCloser) (n : Nat) :
    (b.Read n).1 ++ (b.Read n).2.unread = b.unread := by
  cases b with
  | nopCloser r => exact Reader_Read_unread r n
  | noBody => rfl

theorem readAt_invariant (content : List Byte) (st : List (ReadCloser × List Byte))
    (idx n : Nat) (hst : ∀ entry ∈ st, entry.2 ++ entry.1.unread = content) :
    ∀ entry ∈ readAt st idx n, entry.2 ++ entry.1.unread = content := by
  induction st generalizing idx with
  | nil => simp [readAt]
  | cons hd tl ih =>
      obtain ⟨rc, got⟩ := hd
      cases idx with
      | zero =>
          intro entry he
          simp only [readAt, List.mem_cons] at he
          rcases he with he | he
          · subst he
            have h0 := hst (rc, got) (List.mem_cons_self _ _)
            simp only [List.append_assoc, ReadCloser_Read_unread]
            exact h0
          · exact hst entry (List.mem_cons_of_mem _ he)
      | succ i =>
          intro entry he
          simp only [readAt, List.mem_cons] at he
          rcases he with he | he
          · subst he
            exact hst _ (List.mem_cons_self _ _)
          · exact ih i (fun e h => hst e (List.mem_cons_of_mem _ h)) entry he

theorem replay_invariant (g : GetBodyFn) (content : List Byte)
    (hg : g.call.1.unread = content) (ops : List ReplayOp)
    (st : List (ReadCloser × List Byte))
    (hst : ∀ entry ∈ st, entry.2 ++ entry.1.unread = content) :
    ∀ entry ∈ ops.foldl (replayStep g) st, entry.2 ++ entry.1.unread = content := by
  induction ops generalizing st with
  | nil => exact hst
  | cons op rest ih =>
      simp only [List.foldl]
      apply ih
      cases op with
      | getBody =>
          intro entry he
          simp only [replayStep, List.mem_append, List.mem_singleton] at he
          rcases he with he | he
          · exact hst entry he
          · subst he
            simpa using hg
      | read idx n => exact readAt_invariant content st idx n hst

theorem Body_unrecognised_fresh (d : Dataflow) (pending : List Byte)
    (hg : d.request.GetBody = none) :
    (d.Body (some (Reader.other pending))).request.Body
        = some (ReadCloser.nopCloser (Reader.other pending))
    ∧ (d.Body (some (Reader.other pending))).request.GetBody = none := by
  simp [Dataflow.Body, hg]

/-! ### Claims -/

/-- C1: on a freshly constructed helper, one `WithMiddleware` call with the
links `m1, ..., mk` yields the chain that sends a terminal handler to
`m1(m2(...mk(terminal)...))`; for two probes `[A, B]` a dispatch through
`Request` is observed as A-pre, B-pre, the client's `DoRequest`, B-post,
A-post. The nesting equation is proved for every list, the empty one
included. -/
theorem C1_single_call_nests_first_outermost (NewHttpClient : Config → Except Error Client)
    (conf : Config) (r : RequestHelper)
    (hr : NewRequestHelper NewHttpClient conf = Except.ok r) :
    (∀ (ms : List RequestMiddleware) (terminal : RequestHandle),
        (r.WithMiddleware ms).middlewareHandle terminal = nest ms terminal)
    ∧ (∀ (lib : Stdlib) (a b : String) (d : Dataflow) (trace : List Event),
        d.middlewareHandle = (r.WithMiddleware [probe a, probe b]).middlewareHandle →
        d.err = [] →
        (d.Request lib trace).trace
          = trace ++ [Event.note (a ++ "-pre"), Event.note (b ++ "-pre"), Event.doRequest,
              Event.note (b ++ "-post"), Event.note (a ++ "-post")]) := by
  have hid := NewRequestHelper_handle NewHttpClient conf r hr
  refine ⟨?_, ?_⟩
  · intro ms terminal
    rw [WithMiddleware_handle, withMiddlewareLoop_eq_nest, hid]
  · intro lib a b d trace hd he
    have h := Request_trace_probes lib r hid [a, b] d trace hd he
    simpa [preNotes, postNotes] using h

/-- Witness for C1: the helper constructed for an empty base URL, the links
`[A, B]`, and the builder `Df()` returns for it. -/
theorem C1_single_call_nests_first_outermost_witness :
    NewRequestHelper sampleNewHttpClient { BaseUrl := "" } = Except.ok sampleHelper
    ∧ (sampleHelper.WithMiddleware [probe "A", probe "B"]).middlewareHandle
          (doRequestHandle sampleClient)
        = nest [probe "A", probe "B"] (doRequestHandle sampleClient)
    ∧ ((dfEmptyBase (sampleHelper.WithMiddleware [probe "A", probe "B"])).Request sampleLib []).trace
        = [] ++ [Event.note ("A" ++ "-pre"), Event.note ("B" ++ "-pre"), Event.doRequest,
              Event.note ("B" ++ "-post"), Event.note ("A" ++ "-post")] :=
  ⟨rfl,
   (C1_single_call_nests_first_outermost sampleNewHttpClient { BaseUrl := "" } sampleHelper rfl).1
     [probe "A", probe "B"] (doRequestHandle sampleClient),
   (C1_single_call_nests_first_outermost sampleNewHttpClient { BaseUrl := "" } sampleHelper rfl).2
     sampleLib "A" "B" (dfEmptyBase (sampleHelper.WithMiddleware [probe "A", probe "B"])) [] rfl rfl⟩

/-- C2 as stated fails: after `WithMiddleware(A)` and then, separately,
`WithMiddleware(B)` on the helper constructed for an empty base URL, the
builder returned by `Df()` dispatches in the order A-pre, B-pre, `DoRequest`,
B-post, A-post, which is not the claimed B-pre, A-pre, `DoRequest`, A-post,
B-post. -/
theorem C2_later_call_outermost_counterexample :
    NewRequestHelper sampleNewHttpClient { BaseUrl := "" } = Except.ok sampleHelper
    ∧ ((sampleHelper.WithMiddleware [probe "A"]).WithMiddleware [probe "B"]).Df sampleLib
        = Except.ok (dfEmptyBase ((sampleHelper.WithMiddleware [probe "A"]).WithMiddleware [probe "B"]))
    ∧ ((dfEmptyBase ((sampleHelper.WithMiddleware [probe "A"]).WithMiddleware [probe "B"])).Request
          sampleLib []).trace
        = [Event.note "A-pre", Event.note "B-pre", Event.doRequest, Event.note "B-post",
            Event.note "A-post"]
    ∧ ((dfEmptyBase ((sampleHelper.WithMiddleware [probe "A"]).WithMiddleware [probe "B"])).Request
          sampleLib []).trace
        ≠ [Event.note "B-pre", Event.note "A-pre", Event.doRequest, Event.note "A-post",
            Event.note "B-post"] := by
  have ht : ((dfEmptyBase ((sampleHelper.WithMiddleware [probe "A"]).WithMiddleware [probe "B"])).Request
          sampleLib []).trace
        = [Event.note "A-pre", Event.note "B-pre", Event.doRequest, Event.note "B-post",
            Event.note "A-post"] := by
    rw [WithMiddleware_append]
    have h := Request_trace_probes sampleLib sampleHelper rfl ["A", "B"]
      (dfEmptyBase (sampleHelper.WithMiddleware ([probe "A"] ++ [probe "B"]))) [] rfl rfl
    rw [h]
    decide
  refine ⟨rfl, Df_empty_base _ _ rfl, ht, ?_⟩
  rw [ht]
  decide

/-- C2, amended: on a freshly constructed helper, registering `[A]` in one
`WithMiddleware` call and `[B]` in a later, separate call yields the chain
that sends a terminal handler to `A(B(terminal))`: the earlier call's link
stays outermost and the later call's link is appended inside it. For two
probes a dispatch through `Request` is observed as A-pre, B-pre, the
client's `DoRequest`, B-post, A-post. -/
theorem C2_later_call_nests_inside (NewHttpClient : Config → Except Error Client)
    (conf : Config) (r : RequestHelper)
    (hr : NewRequestHelper NewHttpClient conf = Except.ok r) :
    (∀ (A B : RequestMiddleware) (terminal : RequestHandle),
        ((r.WithMiddleware [A]).WithMiddleware [B]).middlewareHandle terminal = A (B terminal))
    ∧ (∀ (lib : Stdlib) (a b : String) (d : Dataflow) (trace : List Event),
        d.middlewareHandle
          = ((r.WithMiddleware [probe a]).WithMiddleware [probe b]).middlewareHandle →
        d.err = [] →
        (d.Request lib trace).trace
          = trace ++ [Event.note (a ++ "-pre"), Event.note (b ++ "-pre"), Event.doRequest,
              Event.note (b ++ "-post"), Event.note (a ++ "-post")]) := by
  have hid := NewRequestHelper_handle NewHttpClient conf r hr
  refine ⟨?_, ?_⟩
  · intro A B terminal
    rw [WithMiddleware_append, WithMiddleware_handle, withMiddlewareLoop_eq_nest, hid]
    rfl
  · intro lib a b d trace hd he
    rw [WithMiddleware_append] at hd
    have h := Request_trace_probes lib r hid [a, b] d trace hd he
    simpa [preNotes, postNotes] using h

/-- Witness for the amended C2 on the helper constructed for an empty base
URL. -/
theorem C2_later_call_nests_inside_witness :
    NewRequestHelper sampleNewHttpClient { BaseUrl := "" } = Except.ok sampleHelper
    ∧ ((sampleHelper.WithMiddleware [probe "A"]).WithMiddleware [probe "B"]).middlewareHandle
          (doRequestHandle sampleClient)
        = probe "A" (probe "B" (doRequestHandle sampleClient)) :=
  ⟨rfl,
   (C2_later_call_nests_inside sampleNewHttpClient { BaseUrl := "" } sampleHelper rfl).1
     (probe "A") (probe "B") (doRequestHandle sampleClient)⟩

/-- C3: two successive `WithMiddleware` calls with `xs` and then `ys` leave
the helper exactly as one call with `xs ++ ys` does, so the chain applied to
any terminal handler is the same handler; a call with no links leaves the
helper unchanged; and on a helper with the identity chain, probes registered
by the earlier call print their pre-lines before those of the later call
(and their post-lines after them). -/
theorem C3_successive_calls_concatenate :
    (∀ (r : RequestHelper) (xs ys : List RequestMiddleware),
        (r.WithMiddleware xs).WithMiddleware ys = r.WithMiddleware (xs ++ ys))
    ∧ (∀ (r : RequestHelper) (xs ys : List RequestMiddleware) (terminal : RequestHandle),
        ((r.WithMiddleware xs).WithMiddleware ys).middlewareHandle terminal
          = (r.WithMiddleware (xs ++ ys)).middlewareHandle terminal)
    ∧ (∀ (r : RequestHelper), r.WithMiddleware [] = r)
    ∧ (∀ (lib : Stdlib) (r : RequestHelper) (xs ys : List String) (d : Dataflow)
        (trace : List Event),
        (r.middlewareHandle = fun handle => handle) →
        d.middlewareHandle
          = ((r.WithMiddleware (xs.map probe)).WithMiddleware (ys.map probe)).middlewareHandle →
        d.err = [] →
        (d.Request lib trace).trace
          = trace ++ preNotes xs ++ preNotes ys ++ [Event.doRequest] ++ postNotes ys
              ++ postNotes xs) := by
  refine ⟨WithMiddleware_append, ?_, fun r => rfl, ?_⟩
  · intro r xs ys terminal
    rw [WithMiddleware_append]
  · intro lib r xs ys d trace hid hd he
    rw [WithMiddleware_append, ← List.map_append] at hd
    have h := Request_trace_probes lib r hid (xs ++ ys) d trace hd he
    simpa [preNotes, postNotes, List.append_assoc] using h

/-- Witness for C3: the example of the repository in miniature, middleware
`1` registered first and middleware `2` in a later call. -/
theorem C3_successive_calls_concatenate_witness :
    ((dfEmptyBase ((sampleHelper.WithMiddleware (["1"].map probe)).WithMiddleware
          (["2"].map probe))).Request sampleLib []).trace
      = [] ++ preNotes ["1"] ++ preNotes ["2"] ++ [Event.doRequest] ++ postNotes ["2"]
          ++ postNotes ["1"] :=
  C3_successive_calls_concatenate.2.2.2 sampleLib sampleHelper ["1"] ["2"]
    (dfEmptyBase ((sampleHelper.WithMiddleware (["1"].map probe)).WithMiddleware
          (["2"].map probe))) [] rfl rfl rfl

/-- C4: take any chain built by `WithMiddleware` calls on a helper with the
identity chain, whose links are, in order, `outer`, then a link `S` that
returns an error without invoking its next handler, then `inner`, with every
link of `outer` simply delegating. For every builder carrying that chain,
`Request` adds no `DoRequest` invocation to the trace (a counter at 0 stays
at 0) and returns a non-nil error, and nothing inside `S` runs: the
response, the error, the trace, the request and the error list are the same
whatever the inner links and the client are. -/
theorem C4_short_circuit_skips_dispatch (lib : Stdlib) (r : RequestHelper)
    (hid : r.middlewareHandle = fun handle => handle)
    (calls : List (List RequestMiddleware)) (outer inner : List RequestMiddleware)
    (S : RequestMiddleware) (hchain : calls.flatten = outer ++ S :: inner)
    (houter : ∀ o ∈ outer, Delegates o) (hS : ShortCircuits S)
    (d : Dataflow)
    (hd : d.middlewareHandle = (calls.foldl RequestHelper.WithMiddleware r).middlewareHandle)
    (trace : List Event) :
    dispatchCalls (d.Request lib trace).trace = dispatchCalls trace
    ∧ (dispatchCalls trace = 0 → dispatchCalls (d.Request lib trace).trace = 0)
    ∧ (d.Request lib trace).err ≠ none
    ∧ (∀ (inner2 : List RequestMiddleware) (d2 : Dataflow),
        d2.middlewareHandle = (r.WithMiddleware (outer ++ S :: inner2)).middlewareHandle →
        d2.request = d.request → d2.err = d.err →
        (d2.Request lib trace).response = (d.Request lib trace).response
        ∧ (d2.Request lib trace).err = (d.Request lib trace).err
        ∧ (d2.Request lib trace).trace = (d.Request lib trace).trace
        ∧ (d2.Request lib trace).df.request = (d.Request lib trace).df.request
        ∧ (d2.Request lib trace).df.err = (d.Request lib trace).df.err) := by
  obtain ⟨h, hconst, herr, hnd⟩ := hS
  obtain ⟨pre, hpre, hnest⟩ := nest_delegates outer houter
  have hchainEq : ∀ (ins : List RequestMiddleware) (t : RequestHandle),
      (r.WithMiddleware (outer ++ S :: ins)).middlewareHandle t = nest outer h := by
    intro ins t
    rw [WithMiddleware_handle, withMiddlewareLoop_eq_nest, hid, nest_append]
    simp only [nest, hconst]
  have hH : d.middlewareHandle (doRequestHandle d.client) = nest outer h := by
    rw [hd, foldl_WithMiddleware, hchain, hchainEq]
  have hmain := Request_short_circuit lib d trace h pre hpre
    (fun request response t => by rw [hH, hnest]) herr hnd
  refine ⟨hmain.1, fun h0 => by rw [hmain.1, h0], hmain.2, ?_⟩
  intro inner2 d2 hd2 hreq herr2
  exact Request_congr lib d d2 trace hreq herr2 (by rw [hd2, hchainEq, hH])

/-- Witness for C4: `announce` outside, `refuse` in the middle, a probe
inside, registered in two calls on the helper with an empty base URL. -/
theorem C4_short_circuit_skips_dispatch_witness :
    dispatchCalls ((dfEmptyBase ([[announce "outer"], [refuse (Error.new "denied"), probe "inner"]].foldl
        RequestHelper.WithMiddleware sampleHelper)).Request sampleLib []).trace = dispatchCalls []
    ∧ ((dfEmptyBase ([[announce "outer"], [refuse (Error.new "denied"), probe "inner"]].foldl
        RequestHelper.WithMiddleware sampleHelper)).Request sampleLib []).err ≠ none :=
  have h := C4_short_circuit_skips_dispatch sampleLib sampleHelper rfl
    [[announce "outer"], [refuse (Error.new "denied"), probe "inner"]]
    [announce "outer"] [probe "inner"] (refuse (Error.new "denied")) rfl
    (fun o ho => by
      rw [List.mem_singleton] at ho
      subst ho
      exact ⟨fun t => t ++ [Event.note "outer"], fun t => by simp [dispatchCalls], fun _ _ _ _ => rfl⟩)
    ⟨fun request response trace =>
        { err := some (Error.new "denied"), request := request, response := response,
          trace := trace ++ [Event.note "refused"] },
      fun _ => rfl, fun _ _ _ => by simp, fun _ _ _ => by simp [dispatchCalls]⟩
    (dfEmptyBase ([[announce "outer"], [refuse (Error.new "denied"), probe "inner"]].foldl
        RequestHelper.WithMiddleware sampleHelper)) rfl []
  ⟨h.1, h.2.2.1⟩

/-- C5: on a builder whose error list is non-empty, `Err()` is the first
error of the list and `Request` returns that error with a nil response,
leaves the builder as it was (the pending request, without an added Accept
header, and the error list) and the trace as it was; the result does not
depend on the middleware chain or on the client, which are not invoked. -/
theorem C5_accumulated_error_short_circuits (lib : Stdlib) (d : Dataflow) (trace : List Event)
    (e : Error) (es : List Error) (he : d.err = e :: es) :
    d.Err = some e
    ∧ (d.Request lib trace).response = none
    ∧ (d.Request lib trace).err = some e
    ∧ (d.Request lib trace).df = d
    ∧ (d.Request lib trace).df.request = d.request
    ∧ (d.Request lib trace).df.err = e :: es
    ∧ (d.Request lib trace).trace = trace
    ∧ (∀ (mw : RequestMiddleware) (c : Client),
        (({ d with middlewareHandle := mw, client := c } : Dataflow).Request lib trace).response = none
        ∧ (({ d with middlewareHandle := mw, client := c } : Dataflow).Request lib trace).err = some e
        ∧ (({ d with middlewareHandle := mw, client := c } : Dataflow).Request lib trace).trace = trace
        ∧ (({ d with middlewareHandle := mw, client := c } : Dataflow).Request lib trace).df.request
            = d.request) := by
  have hE : d.Err = some e := by simp [Dataflow.Err, he]
  refine ⟨hE, ?_, ?_, ?_, ?_, ?_, ?_, ?_⟩
  · simp [Dataflow.Request, hE]
  · simp [Dataflow.Request, hE]
  · simp [Dataflow.Request, hE]
  · simp [Dataflow.Request, hE]
  · simp [Dataflow.Request, hE, he]
  · simp [Dataflow.Request, hE]
  · intro mw c
    simp [Dataflow.Request, Dataflow.Err, he]

/-- Witness for C5: the builder for an empty base URL after `Url` was given a
string that is not a request URI. -/
theorem C5_accumulated_error_short_circuits_witness :
    (((dfEmptyBase sampleHelper).Url sampleLib "nowhere").Request sampleLib []).err
      = some (Error.wrap (Error.new "invalid URI for request") "invalid url")
    ∧ (((dfEmptyBase sampleHelper).Url sampleLib "nowhere").Request sampleLib []).trace = [] :=
  have h := C5_accumulated_error_short_circuits sampleLib
    ((dfEmptyBase sampleHelper).Url sampleLib "nowhere") []
    (Error.wrap (Error.new "invalid URI for request") "invalid url") [] rfl
  ⟨h.2.2.1, h.2.2.2.2.2.2.1⟩

/-- C6: set-then-add. After `Header(key, v1, ..., vn)` with at least one
value, the values read under `key` are exactly `v1, ..., vn`, whatever was
there, and the values under every key with another canonical form (header
keys are compared in canonical form) are unchanged, as is every other entry
of the map. After `Query(key, v1, ..., vn)` on a builder whose URL is set the
call returns, the new raw query is the encoding of the updated parameters,
and, where decoding gives back what was encoded, the parameters decoded from
the new raw query hold exactly `v1, ..., vn` under `key` and under every
other key what was decoded from the old raw query. A call with no values
returns the builder as it is. -/
theorem C6_header_query_set_then_add (lib : Stdlib) (d : Dataflow) (key : String) :
    (∀ (v : String) (rest : List String),
        headerValues lib (d.Header lib key (v :: rest)).request.Header key = v :: rest
        ∧ (∀ k2, lib.CanonicalMIMEHeaderKey k2 ≠ lib.CanonicalMIMEHeaderKey key →
            headerValues lib (d.Header lib key (v :: rest)).request.Header k2
              = headerValues lib d.request.Header k2)
        ∧ (∀ k, k ≠ lib.CanonicalMIMEHeaderKey key →
            ((d.Header lib key (v :: rest)).request.Header.getD []).get k
              = (d.request.Header.getD []).get k))
    ∧ (∀ (v : String) (rest : List String) (u : url.URL), d.request.URL = some u →
        ∃ d2 u2, d.Query lib key (v :: rest) = Except.ok d2
          ∧ d2.request.URL = some u2
          ∧ u2.RawQuery = lib.Encode (queryLoop key 0 (v :: rest) (urlQuery lib u))
          ∧ ((∀ k, (lib.ParseQuery (lib.Encode (queryLoop key 0 (v :: rest) (urlQuery lib u)))).get k
                = (queryLoop key 0 (v :: rest) (urlQuery lib u)).get k) →
              (urlQuery lib u2).get key = v :: rest
              ∧ ∀ k2, k2 ≠ key → (urlQuery lib u2).get k2 = (urlQuery lib u).get k2))
    ∧ d.Header lib key [] = d
    ∧ d.Query lib key [] = Except.ok d := by
  refine ⟨?_, ?_, rfl, rfl⟩
  · intro v rest
    rw [Header_request_header]
    refine ⟨?_, ?_, ?_⟩
    · simp only [headerValues]
      exact headerLoop_get_set lib key v rest _
    · intro k2 hk2
      simp only [headerValues]
      rw [headerLoop_get_other lib key (v :: rest) 0 _ _ hk2]
      cases d.request.Header <;> simp [StrMap.get]
    · intro k hk
      simp only [Option.getD_some]
      exact headerLoop_get_other lib key (v :: rest) 0 _ _ hk
  · intro v rest u hu
    refine ⟨{ d with request := { d.request with URL := some { u with
        RawQuery := lib.Encode (queryLoop key 0 (v :: rest) (urlQuery lib u)) } } },
      { u with RawQuery := lib.Encode (queryLoop key 0 (v :: rest) (urlQuery lib u)) },
      ?_, rfl, rfl, ?_⟩
    · simp [Dataflow.Query, hu, deref]
    · intro hrt
      simp only [urlQuery] at hrt ⊢
      refine ⟨?_, ?_⟩
      · rw [hrt]
        exact queryLoop_get_set key v rest _
      · intro k2 hk2
        rw [hrt]
        exact queryLoop_get_other key (v :: rest) 0 _ _ hk2

/-- Witness for C6: `Query("a", "b", "c")` on a builder whose URL has an empty
raw query, with the plain codec, which decodes `a=b&a=c&` to what was
encoded. -/
theorem C6_header_query_set_then_add_witness :
    ∃ d2 u2,
      (({ dfEmptyBase sampleHelper with
          request := { URL := some { Host := "h", RawQuery := "", Rest := "" } } } : Dataflow).Query
        codecLib "a" ["b", "c"]) = Except.ok d2
      ∧ d2.request.URL = some u2
      ∧ u2.RawQuery = "a=b&a=c&"
      ∧ (urlQuery codecLib u2).get "a" = ["b", "c"] := by
  obtain ⟨d2, u2, h1, h2, h3, h4⟩ :=
    (C6_header_query_set_then_add codecLib
      ({ dfEmptyBase sampleHelper with
          request := { URL := some { Host := "h", RawQuery := "", Rest := "" } } } : Dataflow)
      "a").2.1 "b" ["c"] { Host := "h", RawQuery := "", Rest := "" } rfl
  refine ⟨d2, u2, h1, h2, ?_, ?_⟩
  · rw [h3]
    decide
  · refine (h4 ?_).1
    intro k
    have hq : codecLib.ParseQuery (codecLib.Encode (queryLoop "a" 0 ["b", "c"]
        (urlQuery codecLib { Host := "h", RawQuery := "", Rest := "" })))
        = queryLoop "a" 0 ["b", "c"]
            (urlQuery codecLib { Host := "h", RawQuery := "", Rest := "" }) := by
      decide
    rw [hq]

/-- C7: for a body backed by a `*bytes.Buffer`, `*bytes.Reader` or
`*strings.Reader` with at least one unread byte, after `Body(src)` the
request body is `src`, `GetBody` is set, `ContentLength` is the number of
unread bytes of `src`, every invocation of `GetBody` returns, without error,
a reader whose full content is the unread content of `src` at attachment,
and in every session that interleaves invocations with reads from earlier
results, each reader handed out has delivered plus still holds exactly that
content, one reader per invocation. -/
theorem C7_in_memory_body_replays (d : Dataflow) (src : Reader) (hmem : src.inMemory = true)
    (hne : src.unread ≠ []) :
    (d.Body (some src)).request.Body = some (ReadCloser.nopCloser src)
    ∧ (d.Body (some src)).request.ContentLength = (src.unread.length : Int)
    ∧ ∃ g, (d.Body (some src)).request.GetBody = some g
        ∧ g.call.2 = none
        ∧ g.call.1.unread = src.unread
        ∧ ∀ ops : List ReplayOp,
            (∀ entry ∈ replayRun g ops, entry.2 ++ entry.1.unread = src.unread)
            ∧ (replayRun g ops).length = ops.count ReplayOp.getBody := by
  have hlen : ∀ (l : List Byte) (i : Nat), l.drop i ≠ [] → i < l.length := by
    intro l i h
    by_contra hc
    exact h (List.drop_of_length_le (Nat.le_of_not_lt hc))
  have hcount : ∀ (g : GetBodyFn) (ops : List ReplayOp) (st : List (ReadCloser × List Byte)),
      (ops.foldl (replayStep g) st).length = st.length + ops.count ReplayOp.getBody := by
    intro g ops
    induction ops with
    | nil => intro st; simp
    | cons op rest ih =>
        intro st
        have hread : ∀ (s : List (ReadCloser × List Byte)) (idx n : Nat),
            (readAt s idx n).length = s.length := by
          intro s
          induction s with
          | nil => intro idx n; simp [readAt]
          | cons hd tl ih2 =>
              intro idx n
              obtain ⟨rc, got⟩ := hd
              cases idx with
              | zero => simp [readAt]
              | succ i => simp [readAt, ih2]
        simp only [List.foldl]
        rw [ih]
        cases op with
        | getBody => simp [replayStep, List.count_cons]; omega
        | read idx n => simp [replayStep, hread, List.count_cons]
  have hsession : ∀ g : GetBodyFn, g.call.1.unread = src.unread → ∀ ops : List ReplayOp,
      (∀ entry ∈ replayRun g ops, entry.2 ++ entry.1.unread = src.unread)
      ∧ (replayRun g ops).length = ops.count ReplayOp.getBody := by
    intro g hg ops
    refine ⟨replay_invariant g src.unread hg ops [] (by simp), ?_⟩
    simp [replayRun, hcount]
  cases src with
  | other pending => simp [Reader.inMemory] at hmem
  | bytesBuffer v =>
      have hv : v.off < v.buf.length := hlen v.buf v.off hne
      have hL : ((v.Len : Nat) : Int) ≠ 0 := by
        simp only [BytesBuffer.Len]
        omega
      have hnz : v.buf.length - v.off ≠ 0 := by omega
      refine ⟨?_, ?_, GetBodyFn.newReader v.Bytes, ?_, rfl, ?_, ?_⟩
      · simp [Dataflow.Body, hL]
      · simp [Dataflow.Body, hL, Reader.unread, BytesBuffer.Len, hnz]
      · simp [Dataflow.Body, hL]
      · simp [GetBodyFn.call, ReadCloser.unread, Reader.unread, bytesNewReader, BytesBuffer.Bytes]
      · exact hsession _ (by
          simp [GetBodyFn.call, ReadCloser.unread, Reader.unread, bytesNewReader, BytesBuffer.Bytes])
  | bytesReader v =>
      have hv : v.i < v.s.length := hlen v.s v.i hne
      have hlenEq : v.Len = v.s.length - v.i := by
        simp [BytesReader.Len, Nat.not_le.mpr hv]
      have hL : ((v.Len : Nat) : Int) ≠ 0 := by
        rw [hlenEq]
        omega
      have hnz : v.s.length - v.i ≠ 0 := by omega
      refine ⟨?_, ?_, GetBodyFn.copyBytesReader v, ?_, rfl, ?_, ?_⟩
      · simp [Dataflow.Body, hL]
      · simp [Dataflow.Body, hL, Reader.unread, hlenEq, hnz]
      · simp [Dataflow.Body, hL]
      · simp [GetBodyFn.call, ReadCloser.unread, Reader.unread]
      · exact hsession _ (by simp [GetBodyFn.call, ReadCloser.unread, Reader.unread])
  | stringsReader v =>
      have hv : v.i < v.s.length := hlen v.s v.i hne
      have hlenEq : v.Len = v.s.length - v.i := by
        simp [StringsReader.Len, Nat.not_le.mpr hv]
      have hL : ((v.Len : Nat) : Int) ≠ 0 := by
        rw [hlenEq]
        omega
      have hnz : v.s.length - v.i ≠ 0 := by omega
      refine ⟨?_, ?_, GetBodyFn.copyStringsReader v, ?_, rfl, ?_, ?_⟩
      · simp [Dataflow.Body, hL]
      · simp [Dataflow.Body, hL, Reader.unread, hlenEq, hnz]
      · simp [Dataflow.Body, hL]
      · simp [GetBodyFn.call, ReadCloser.unread, Reader.unread]
      · exact hsession _ (by simp [GetBodyFn.call, ReadCloser.unread, Reader.unread])

/-- Witness for C7: a `bytes.Reader` over four bytes with the first one
already read; a session that invokes the replay function, reads two bytes of
the result, and invokes it again. -/
theorem C7_in_memory_body_replays_witness :
    ((dfEmptyBase sampleHelper).Body
        (some (Reader.bytesReader { s := [1, 2, 3, 4], i := 1, prevRune := -1 }))).request.ContentLength
      = 3
    ∧ ∃ g, ((dfEmptyBase sampleHelper).Body
        (some (Reader.bytesReader { s := [1, 2, 3, 4], i := 1, prevRune := -1 }))).request.GetBody
          = some g
        ∧ g.call.1.unread = [2, 3, 4]
        ∧ (replayRun g [ReplayOp.getBody, ReplayOp.read 0 2, ReplayOp.getBody]).length = 2 := by
  have h := C7_in_memory_body_replays (dfEmptyBase sampleHelper)
    (Reader.bytesReader { s := [1, 2, 3, 4], i := 1, prevRune := -1 }) rfl (by decide)
  obtain ⟨_, h2, g, h3, _, h5, h6⟩ := h
  refine ⟨?_, g, h3, ?_, ?_⟩
  · rw [h2]
    rfl
  · rw [h5]
    rfl
  · rw [(h6 _).2]
    rfl

/-- C8 fails on a builder that already carries a replay function. On the
builder `Df()` returns for an empty base URL, `Body` with an empty
`bytes.Buffer` followed by `Body(r)` for an unrecognised reader `r` holding
one byte leaves the empty-body sentinel as the request body and a replay
function set; `Json` followed by `Body(r)` leaves `r` as the body but keeps
the replay function and the content length of the JSON document. -/
theorem C8_unrecognised_body_keeps_stale_replay :
    sampleHelper.Df sampleLib = Except.ok (dfEmptyBase sampleHelper)
    ∧ (((dfEmptyBase sampleHelper).Body (some (Reader.bytesBuffer { buf := [], off := 0 }))).Body
          (some (Reader.other [120]))).request.Body = some ReadCloser.noBody
    ∧ (((dfEmptyBase sampleHelper).Body (some (Reader.bytesBuffer { buf := [], off := 0 }))).Body
          (some (Reader.other [120]))).request.GetBody = some GetBodyFn.noBody
    ∧ (((dfEmptyBase sampleHelper).Json sampleLib AnyValue.nil).Body
          (some (Reader.other [120]))).request.Body
        = some (ReadCloser.nopCloser (Reader.other [120]))
    ∧ (((dfEmptyBase sampleHelper).Json sampleLib AnyValue.nil).Body
          (some (Reader.other [120]))).request.GetBody
        = some (GetBodyFn.newReader [123, 125, 10])
    ∧ (((dfEmptyBase sampleHelper).Json sampleLib AnyValue.nil).Body
          (some (Reader.other [120]))).request.ContentLength = 3 := by
  refine ⟨Df_empty_base _ _ rfl, ?_, ?_, ?_, ?_, ?_⟩ <;> decide

/-- C9 fails at `Query` and at `Uri`. For every standard library, client and
chain: the builder `NewDataflow` returns for an option with an empty base
URL panics with a nil dereference at `Query` with at least one value (its
URL is nil), although `Uri` on the same builder returns normally after
recording `invalid request url`; and the builder `NewDataflow` returns for a
nil option panics with a nil dereference at `Uri`. -/
theorem C9_query_and_uri_nil_dereference (lib : Stdlib) (c : Client)
    (mw : Option RequestMiddleware) :
    (∃ d, NewDataflow lib c mw (some { BaseUrl := "" }) = Except.ok d
        ∧ (∀ (key v : String) (rest : List String),
            d.Query lib key (v :: rest) = Except.error Panic.nilDereference)
        ∧ (∀ uri : String,
            d.Uri lib uri = Except.ok { d with err := [Error.new "invalid request url"] }))
    ∧ (∃ d, NewDataflow lib c mw none = Except.ok d
        ∧ ∀ uri : String, d.Uri lib uri = Except.error Panic.nilDereference) := by
  refine ⟨⟨_, rfl, ?_, ?_⟩, ⟨_, rfl, ?_⟩⟩
  · intro key v rest
    simp [Dataflow.Query, deref]
  · intro uri
    simp [Dataflow.Uri, deref]
  · intro uri
    simp [Dataflow.Uri, deref]

/-- C10 fails: for every option whose base URL is non-empty and is rejected
by `url.ParseRequestURI`, `NewDataflow` does not return a builder; after
appending the `base url invalid` error it dereferences the nil URL and
panics. -/
theorem C10_invalid_base_url_panics (lib : Stdlib) (c : Client) (mw : Option RequestMiddleware)
    (base : String) (e : Error) (hne : base ≠ "")
    (hparse : lib.ParseRequestURI base = Except.error e) :
    NewDataflow lib c mw (some { BaseUrl := base }) = Except.error Panic.nilDereference := by
  simp [NewDataflow, hne, hparse, deref]

/-- Witness for C10: a base URL without a scheme. -/
theorem C10_invalid_base_url_panics_witness :
    NewDataflow sampleLib sampleClient none (some { BaseUrl := "www.example.test" })
      = Except.error Panic.nilDereference :=
  C10_invalid_base_url_panics sampleLib sampleClient none "www.example.test"
    (Error.new "invalid URI for request") (by decide) rfl

/-! ### Dispatch and decoding -/

theorem Header_request_fields (lib : Stdlib) (d : Dataflow) (key : String)
    (values : List String) :
    (d.Header lib key values).request
      = { d.request with Header := (d.Header lib key values).request.Header } := by
  unfold Dataflow.Header Dataflow.makeHeaderIfNil
  split
  · rfl
  · cases hh : d.request.Header <;> simp [hh]

theorem Request_response_of_no_error (lib : Stdlib) (d : Dataflow) (trace : List Event)
    (he : d.err = []) :
    (d.Request lib trace).response
      = some (d.middlewareHandle (doRequestHandle d.client)
          (d.Header lib "Accept" ["*/*"]).request {} trace).response := by
  have hE : d.Err = none := by simp [Dataflow.Err, he]
  unfold Dataflow.Request
  rw [hE]
  simp only [Header_middlewareHandle, Header_client]
  split <;> rfl

theorem Request_response_some (lib : Stdlib) (d : Dataflow) (trace : List Event)
    (hn : (d.Request lib trace).err = none) :
    ∃ resp, (d.Request lib trace).response = some resp := by
  cases hd : d.err with
  | nil => exact ⟨_, Request_response_of_no_error lib d trace hd⟩
  | cons e es =>
      have hE : d.Err = some e := by simp [Dataflow.Err, hd]
      simp [Dataflow.Request, hE] at hn

theorem Result_rejects_without_dispatch (lib : Stdlib)
    (Decode : Option ReadCloser → Target → Option Error × Target) (d : Dataflow)
    (result : Target) (trace : List Event)
    (hbad : result = Target.any AnyValue.nil ∨ result.kindIsPtr = false) :
    ∃ e, d.Result lib Decode result trace
      = Except.ok { err := some e, target := result, df := d, trace := trace } := by
  unfold Dataflow.Result
  by_cases h1 : result = Target.any AnyValue.nil
  · exact ⟨_, by rw [if_pos h1]⟩
  · rcases hbad with h | h
    · exact absurd h h1
    · exact ⟨_, by rw [if_neg h1, if_pos h]⟩

/-! ### Claims, continued -/

/-- C11 as stated fails in its second half: on the builder for an empty base
URL, with the identity chain and a client that answers with the headers of
the request it is handed, after the caller's `Header("Accept",
"application/json")` the error list is empty and the builder holds the
caller's value, yet the request that reaches the client through `Request`
carries Accept `*/*` and not `application/json`. -/
theorem C11_caller_accept_replaced_counterexample :
    ((dfEmptyBase (sampleHelper.SetClient echoClient)).Header sampleLib "Accept"
        ["application/json"]).err = []
    ∧ headerValues sampleLib ((dfEmptyBase (sampleHelper.SetClient echoClient)).Header sampleLib
        "Accept" ["application/json"]).request.Header "Accept" = ["application/json"]
    ∧ (((dfEmptyBase (sampleHelper.SetClient echoClient)).Header sampleLib "Accept"
        ["application/json"]).Request sampleLib []).response
        = some { Header := some [("Accept", ["*/*"])] }
    ∧ (((dfEmptyBase (sampleHelper.SetClient echoClient)).Header sampleLib "Accept"
        ["application/json"]).Request sampleLib []).response
        ≠ some { Header := some [("Accept", ["application/json"])] } := by
  refine ⟨?_, ?_, ?_, ?_⟩ <;> decide

/-- C11, amended: when `Request` dispatches (error list empty), `Accept` is
set to `*/*`, not defaulted. The request handed to the middleware chain is
the pending request with its header map changed only under `Accept`, where
it carries exactly `*/*`, whether the caller set no Accept header or set
some value or values, which are replaced; the response and the trace of
`Request` are those of the chain run on that request. -/
theorem C11_request_sets_accept (lib : Stdlib) (d : Dataflow) (trace : List Event)
    (he : d.err = []) :
    ∃ req : http.Request,
      (d.Request lib trace).response
        = some (d.middlewareHandle (doRequestHandle d.client) req {} trace).response
      ∧ (d.Request lib trace).trace
        = (d.middlewareHandle (doRequestHandle d.client) req {} trace).trace
      ∧ headerValues lib req.Header "Accept" = ["*/*"]
      ∧ (∀ k2, lib.CanonicalMIMEHeaderKey k2 ≠ lib.CanonicalMIMEHeaderKey "Accept" →
          headerValues lib req.Header k2 = headerValues lib d.request.Header k2)
      ∧ req = { d.request with Header := req.Header } := by
  refine ⟨(d.Header lib "Accept" ["*/*"]).request, Request_response_of_no_error lib d trace he,
    Request_trace_of_no_error lib d trace he, ?_, ?_, Header_request_fields lib d _ _⟩
  · rw [Header_request_header]
    simp only [headerValues]
    exact headerLoop_get_set lib "Accept" "*/*" [] _
  · intro k2 hk2
    rw [Header_request_header]
    simp only [headerValues]
    rw [headerLoop_get_other lib "Accept" ["*/*"] 0 _ _ hk2]
    cases d.request.Header <;> simp [StrMap.get]

/-- Witness for the amended C11: the builder for an empty base URL after the
caller's `Header("Accept", "application/json")`. -/
theorem C11_request_sets_accept_witness :
    ∃ req : http.Request,
      headerValues sampleLib req.Header "Accept" = ["*/*"]
      ∧ (((dfEmptyBase (sampleHelper.SetClient echoClient)).Header sampleLib "Accept"
          ["application/json"]).Request sampleLib []).trace
        = (((dfEmptyBase (sampleHelper.SetClient echoClient)).Header sampleLib "Accept"
            ["application/json"]).middlewareHandle (doRequestHandle echoClient) req {} []).trace := by
  obtain ⟨req, _, h2, h3, _, _⟩ := C11_request_sets_accept sampleLib
    ((dfEmptyBase (sampleHelper.SetClient echoClient)).Header sampleLib "Accept"
      ["application/json"]) [] (by decide)
  exact ⟨req, h3, h2⟩

/-- C12 fails for a nil pointer. For every builder, standard library and
decoder, `Result` with a nil pointer as target passes both checks and runs
`Request`: it returns normally with the trace, the pending request and the
error list that `Request` leaves. On the builder for an empty base URL, with
a decoder that refuses a nil pointer, the client's `DoRequest` is invoked
once, the pending request has gained the Accept header, and only then the
decode error is returned. -/
theorem C12_nil_pointer_target_dispatches (lib : Stdlib)
    (Decode : Option ReadCloser → Target → Option Error × Target) (d : Dataflow)
    (trace : List Event) :
    (∃ out, d.Result lib Decode (Target.pointer none) trace = Except.ok out
        ∧ out.trace = (d.Request lib trace).trace
        ∧ out.df.request = (d.Request lib trace).df.request
        ∧ out.df.err = (d.Request lib trace).df.err)
    ∧ (∃ out, (dfEmptyBase sampleHelper).Result sampleLib sampleDecode (Target.pointer none) []
          = Except.ok out
        ∧ out.trace = [Event.doRequest]
        ∧ dispatchCalls out.trace = 1
        ∧ (dfEmptyBase sampleHelper).request.Header = some []
        ∧ out.df.request.Header = some [("Accept", ["*/*"])]
        ∧ out.err = some (Error.wrap (Error.new "json: Unmarshal(nil or non-pointer)")
            "decode response failed")) := by
  refine ⟨?_, ⟨_, rfl, ?_, ?_, ?_, ?_, ?_⟩⟩
  · unfold Dataflow.Result
    have h1 : ¬ (Target.pointer none = Target.any AnyValue.nil) := by decide
    have h2 : ¬ ((Target.pointer none).kindIsPtr = false) := by decide
    rw [if_neg h1, if_neg h2]
    cases hE : (d.Request lib trace).err with
    | some e =>
        refine ⟨ResultOutcome.mk (some e) (Target.pointer none) (d.Request lib trace).df
          (d.Request lib trace).trace, ?_, rfl, rfl, rfl⟩
        simp [hE]
    | none =>
        obtain ⟨resp, hresp⟩ := Request_response_some lib d trace hE
        cases hD : (Decode resp.Body (Target.pointer none)).1 with
        | some e =>
            refine ⟨ResultOutcome.mk (some (Error.wrap e "decode response failed"))
              (Decode resp.Body (Target.pointer none)).2 (d.Request lib trace).df
              (d.Request lib trace).trace, ?_, rfl, rfl, rfl⟩
            simp [hE, hresp, deref, hD]
        | none =>
            refine ⟨ResultOutcome.mk none (Decode resp.Body (Target.pointer none)).2
              (d.Request lib trace).df (d.Request lib trace).trace, ?_, rfl, rfl, rfl⟩
            simp [hE, hresp, deref, hD]
  · decide
  · decide
  · decide
  · decide
  · decide

end HttpHelper
